import Mathlib

/-!
# Verification of the `rerank` text-summarization engine

Shallow embedding of `src/src/utils/textSummarization.ts` (both revisions of the
module present in the repository: the plain one and the one extended with quality
metrics and visualization data).  JavaScript numbers are idealized as real
numbers `ℝ`; the frequency score is modelled with `Option ℚ`, `none` standing
for a non-finite result, which JavaScript produces there in two ways: the
unguarded division `score / sentenceWords.length` is `0 / 0 = NaN` when the
sentence has no word token, and the frequency table is a plain object
literal, so lookups of the lowercase tokens `constructor` and `__proto__`
hit `Object.prototype`, turn the running score into a string, and make the
final division `NaN` as well.  String indices and lengths are counted in
characters.
-/

namespace Rerank

/-! ### Character classes used by the JavaScript regexes -/

/-- The `\w` class of the JavaScript regexes (ASCII letters, digits, `_`). -/
def isWordChar (c : Char) : Bool := c.isAlpha || c.isDigit || c == '_'

/-- The `[.!?]` class used by the sentence splitter. -/
def isSentencePunct (c : Char) : Bool := c == '.' || c == '!' || c == '?'

/-! ### JavaScript string primitives -/

/-- Collapse each maximal run of characters satisfying `p` into a single
character (the last one of the run).  Used to model splitting on a
one-or-more regex `/[p]+/` by splitting on single characters afterwards. -/
def collapseRuns (p : Char → Bool) : List Char → List Char
  | [] => []
  | [c] => [c]
  | a :: b :: rest =>
    if p a && p b then collapseRuns p (b :: rest)
    else a :: collapseRuns p (b :: rest)

/-- Split a character list at every character satisfying `p`, dropping the
separators and keeping (possibly empty) fields, as JavaScript `split` does. -/
def splitEach (p : Char → Bool) : List Char → List (List Char)
  | [] => [[]]
  | c :: cs =>
    if p c then [] :: splitEach p cs
    else
      match splitEach p cs with
      | [] => [[c]]
      | f :: r => (c :: f) :: r

/-- JavaScript `s.split(/[p]+/)`: fields between maximal runs of `p`-characters,
including an empty leading/trailing field when the string starts/ends with a
run, and `[""]` on the empty string. -/
def jsSplitRuns (p : Char → Bool) (s : String) : List String :=
  (splitEach p (collapseRuns p s.data)).map (fun cs => String.mk cs)

/-- Drop whitespace from both ends of a character list. -/
def trimChars (l : List Char) : List Char :=
  ((l.dropWhile Char.isWhitespace).reverse.dropWhile Char.isWhitespace).reverse

/-- JavaScript `String.prototype.trim`. -/
def jsTrim (s : String) : String := String.mk (trimChars s.data)

/-- JavaScript `String.prototype.toLowerCase` (ASCII case mapping). -/
def jsLower (s : String) : String := String.mk (s.data.map Char.toLower)

/-! ### Sentence segmentation and tokenization (`textSummarization.ts`) -/

/-- `tokenizeSentences` (identical in both module revisions): split the text on
`/[.!?]+/`, trim each piece, and keep only pieces of trimmed length `> 10`. -/
def tokenizeSentences (text : String) : List String :=
  ((jsSplitRuns isSentencePunct text).map jsTrim).filter (fun s => 10 < s.data.length)

/-- The token list `sent.toLowerCase().split(/\s+/)` built inside
`cosineSimilarity` for each argument sentence. -/
def sentenceWords (s : String) : List String :=
  jsSplitRuns Char.isWhitespace (jsLower s)

/-- JavaScript `str.match(/\b\w+\b/g) || []`: the maximal runs of word
characters of `str`, in order; `[]` when there are none. -/
def matchWords (s : String) : List String :=
  ((splitEach (fun c => !isWordChar c) s.data).filter (fun cs => cs ≠ [])).map
    (fun cs => String.mk cs)

/-- `Array.from(new Set(l))` keeps the first occurrence of each element, in
order; `seen` accumulates the elements already emitted. -/
def jsSetDedupAux (seen : List String) : List String → List String
  | [] => []
  | a :: l =>
    if a ∈ seen then jsSetDedupAux seen l
    else a :: jsSetDedupAux (a :: seen) l

/-- `Array.from(new Set([...words1, ...words2]))`. -/
def jsSetDedup (l : List String) : List String := jsSetDedupAux [] l

/-- `words.filter(w => w === word).length`. -/
def countOcc (w : String) (ws : List String) : ℕ :=
  (ws.filter (fun x => x == w)).length

/-- `cosineSimilarity` (identical in both module revisions): bag-of-words
cosine over the union of the two token multisets, `0` when either magnitude
is zero (the JavaScript guard `magnitude1 && magnitude2`). -/
noncomputable def cosineSimilarity (sent1 sent2 : String) : ℝ :=
  let words1 := sentenceWords sent1
  let words2 := sentenceWords sent2
  let allWords := jsSetDedup (words1 ++ words2)
  let vector1 := allWords.map (fun w => (countOcc w words1 : ℝ))
  let vector2 := allWords.map (fun w => (countOcc w words2 : ℝ))
  let dotProduct := (List.zipWith (· * ·) vector1 vector2).sum
  let magnitude1 := Real.sqrt ((vector1.map (fun v => v * v)).sum)
  let magnitude2 := Real.sqrt ((vector2.map (fun v => v * v)).sum)
  if magnitude1 = 0 ∨ magnitude2 = 0 then 0 else dotProduct / (magnitude1 * magnitude2)

/-! ### Basic facts about the string primitives -/

theorem splitEach_ne_nil (p : Char → Bool) : ∀ l : List Char, splitEach p l ≠ []
  | [] => by simp [splitEach]
  | c :: cs => by
    rcases hs : splitEach p cs with _ | ⟨f, r⟩ <;>
      by_cases h : p c <;> simp [splitEach, h, hs]

theorem sentenceWords_ne_nil (s : String) : sentenceWords s ≠ [] := by
  simp only [sentenceWords, jsSplitRuns, ne_eq, List.map_eq_nil_iff]
  exact splitEach_ne_nil _ _

theorem mem_jsSetDedupAux {x : String} :
    ∀ {l seen : List String}, x ∈ jsSetDedupAux seen l ↔ x ∈ l ∧ x ∉ seen
  | [], seen => by simp [jsSetDedupAux]
  | a :: l, seen => by
    by_cases h : a ∈ seen
    · simp only [jsSetDedupAux, if_pos h, mem_jsSetDedupAux, List.mem_cons]
      by_cases hxa : x = a
      · subst hxa; tauto
      · tauto
    · simp only [jsSetDedupAux, if_neg h, List.mem_cons, mem_jsSetDedupAux]
      by_cases hxa : x = a
      · subst hxa; tauto
      · tauto

theorem nodup_jsSetDedupAux :
    ∀ (l seen : List String), (jsSetDedupAux seen l).Nodup
  | [], _ => List.nodup_nil
  | a :: l, seen => by
    by_cases h : a ∈ seen
    · simp only [jsSetDedupAux, if_pos h]
      exact nodup_jsSetDedupAux l seen
    · simp only [jsSetDedupAux, if_neg h]
      refine List.nodup_cons.2 ⟨fun hc => ?_, nodup_jsSetDedupAux l (a :: seen)⟩
      exact (mem_jsSetDedupAux.1 hc).2 (List.mem_cons_self _ _)

theorem mem_jsSetDedup {x : String} {l : List String} :
    x ∈ jsSetDedup l ↔ x ∈ l := by
  simp [jsSetDedup, mem_jsSetDedupAux]

theorem nodup_jsSetDedup (l : List String) : (jsSetDedup l).Nodup :=
  nodup_jsSetDedupAux l []

theorem jsSetDedup_perm_swap (w1 w2 : List String) :
    (jsSetDedup (w1 ++ w2)).Perm (jsSetDedup (w2 ++ w1)) := by
  refine List.perm_of_nodup_nodup_toFinset_eq (nodup_jsSetDedup _) (nodup_jsSetDedup _) ?_
  ext x
  simp [List.mem_toFinset, mem_jsSetDedup, or_comm]

theorem countOcc_pos {x : String} {ws : List String} (hx : x ∈ ws) :
    0 < countOcc x ws := by
  simp only [countOcc, List.length_pos_iff_ne_nil, ne_eq, List.filter_eq_nil_iff, not_forall]
  exact ⟨x, hx, by simp⟩

/-! ### Cosine similarity: symmetry, bounds, self-similarity -/

theorem zipWith_mul_map (l : List String) (f g : String → ℝ) :
    List.zipWith (· * ·) (l.map f) (l.map g) = l.map (fun x => f x * g x) := by
  induction l with
  | nil => rfl
  | cons a l ih => simp [ih]

/-- Cauchy–Schwarz for sums over a duplicate-free list. -/
theorem list_inner_le_sqrt_mul_sqrt (U : List String) (hU : U.Nodup) (f g : String → ℝ) :
    (U.map fun w => f w * g w).sum ≤
      Real.sqrt (U.map fun w => f w * f w).sum * Real.sqrt (U.map fun w => g w * g w).sum := by
  have hfg : (U.map fun w => f w * g w).sum = ∑ w ∈ U.toFinset, f w * g w :=
    (List.sum_toFinset _ hU).symm
  have hff : (U.map fun w => f w * f w).sum = ∑ w ∈ U.toFinset, f w * f w :=
    (List.sum_toFinset _ hU).symm
  have hgg : (U.map fun w => g w * g w).sum = ∑ w ∈ U.toFinset, g w * g w :=
    (List.sum_toFinset _ hU).symm
  rw [hfg, hff, hgg]
  have hcs : (∑ w ∈ U.toFinset, f w * g w) ^ 2 ≤
      (∑ w ∈ U.toFinset, f w * f w) * ∑ w ∈ U.toFinset, g w * g w := by
    simpa [sq] using Finset.sum_mul_sq_le_sq_mul_sq U.toFinset f g
  have hf0 : 0 ≤ ∑ w ∈ U.toFinset, f w * f w :=
    Finset.sum_nonneg fun w _ => mul_self_nonneg _
  calc (∑ w ∈ U.toFinset, f w * g w)
      ≤ |∑ w ∈ U.toFinset, f w * g w| := le_abs_self _
    _ = Real.sqrt ((∑ w ∈ U.toFinset, f w * g w) ^ 2) := (Real.sqrt_sq_eq_abs _).symm
    _ ≤ Real.sqrt ((∑ w ∈ U.toFinset, f w * f w) * ∑ w ∈ U.toFinset, g w * g w) :=
        Real.sqrt_le_sqrt hcs
    _ = Real.sqrt (∑ w ∈ U.toFinset, f w * f w) *
        Real.sqrt (∑ w ∈ U.toFinset, g w * g w) := Real.sqrt_mul hf0 _

/-- Proof-side abbreviation: `∑ of count(w, w1) * count(w, w2) over U`.  With
`w1 = w2` this is the squared magnitude appearing in `cosineSimilarity`. -/
def dotSum (U w1 w2 : List String) : ℝ :=
  (U.map fun w => (countOcc w w1 : ℝ) * (countOcc w w2 : ℝ)).sum

theorem dotSum_nonneg (U w1 w2 : List String) : 0 ≤ dotSum U w1 w2 := by
  refine List.sum_nonneg fun x hx => ?_
  rcases List.mem_map.1 hx with ⟨w, _, rfl⟩
  positivity

/-- `cosineSimilarity` rewritten through `dotSum`. -/
theorem cosineSimilarity_eq (a b : String) :
    cosineSimilarity a b =
      if Real.sqrt (dotSum (jsSetDedup (sentenceWords a ++ sentenceWords b))
            (sentenceWords a) (sentenceWords a)) = 0 ∨
         Real.sqrt (dotSum (jsSetDedup (sentenceWords a ++ sentenceWords b))
            (sentenceWords b) (sentenceWords b)) = 0 then 0
      else
        dotSum (jsSetDedup (sentenceWords a ++ sentenceWords b))
            (sentenceWords a) (sentenceWords b) /
          (Real.sqrt (dotSum (jsSetDedup (sentenceWords a ++ sentenceWords b))
              (sentenceWords a) (sentenceWords a)) *
           Real.sqrt (dotSum (jsSetDedup (sentenceWords a ++ sentenceWords b))
              (sentenceWords b) (sentenceWords b))) := by
  simp only [cosineSimilarity, dotSum, zipWith_mul_map, List.map_map, Function.comp_def]

theorem cosineSimilarity_comm (a b : String) :
    cosineSimilarity a b = cosineSimilarity b a := by
  rw [cosineSimilarity_eq, cosineSimilarity_eq]
  have hperm := jsSetDedup_perm_swap (sentenceWords a) (sentenceWords b)
  have hsum : ∀ f : String → ℝ,
      ((jsSetDedup (sentenceWords a ++ sentenceWords b)).map f).sum =
      ((jsSetDedup (sentenceWords b ++ sentenceWords a)).map f).sum :=
    fun f => (hperm.map f).sum_eq
  have hD : dotSum (jsSetDedup (sentenceWords a ++ sentenceWords b))
        (sentenceWords a) (sentenceWords b) =
      dotSum (jsSetDedup (sentenceWords b ++ sentenceWords a))
        (sentenceWords b) (sentenceWords a) := by
    rw [dotSum, dotSum, hsum]
    simp [mul_comm]
  have hA : dotSum (jsSetDedup (sentenceWords a ++ sentenceWords b))
        (sentenceWords a) (sentenceWords a) =
      dotSum (jsSetDedup (sentenceWords b ++ sentenceWords a))
        (sentenceWords a) (sentenceWords a) := by
    rw [dotSum, dotSum, hsum]
  have hB : dotSum (jsSetDedup (sentenceWords a ++ sentenceWords b))
        (sentenceWords b) (sentenceWords b) =
      dotSum (jsSetDedup (sentenceWords b ++ sentenceWords a))
        (sentenceWords b) (sentenceWords b) := by
    rw [dotSum, dotSum, hsum]
  rw [hD, hA, hB]
  by_cases h1 : Real.sqrt (dotSum (jsSetDedup (sentenceWords b ++ sentenceWords a))
      (sentenceWords a) (sentenceWords a)) = 0 <;>
    by_cases h2 : Real.sqrt (dotSum (jsSetDedup (sentenceWords b ++ sentenceWords a))
        (sentenceWords b) (sentenceWords b)) = 0 <;>
    simp [h1, h2, mul_comm]

theorem cosineSimilarity_nonneg (a b : String) : 0 ≤ cosineSimilarity a b := by
  rw [cosineSimilarity_eq]
  split
  · exact le_refl 0
  · exact div_nonneg (dotSum_nonneg _ _ _)
      (mul_nonneg (Real.sqrt_nonneg _) (Real.sqrt_nonneg _))

theorem cosineSimilarity_le_one (a b : String) : cosineSimilarity a b ≤ 1 := by
  rw [cosineSimilarity_eq]
  split
  · exact zero_le_one
  · rename_i hne
    push_neg at hne
    have h1 : 0 < Real.sqrt (dotSum (jsSetDedup (sentenceWords a ++ sentenceWords b))
        (sentenceWords a) (sentenceWords a)) :=
      lt_of_le_of_ne (Real.sqrt_nonneg _) (Ne.symm hne.1)
    have h2 : 0 < Real.sqrt (dotSum (jsSetDedup (sentenceWords a ++ sentenceWords b))
        (sentenceWords b) (sentenceWords b)) :=
      lt_of_le_of_ne (Real.sqrt_nonneg _) (Ne.symm hne.2)
    rw [div_le_one (mul_pos h1 h2)]
    simpa [dotSum] using
      list_inner_le_sqrt_mul_sqrt (jsSetDedup (sentenceWords a ++ sentenceWords b))
        (nodup_jsSetDedup _)
        (fun w => (countOcc w (sentenceWords a) : ℝ))
        (fun w => (countOcc w (sentenceWords b) : ℝ))

theorem cosineSimilarity_self (s : String) : cosineSimilarity s s = 1 := by
  rw [cosineSimilarity_eq]
  obtain ⟨x, hxw⟩ := List.exists_mem_of_ne_nil _ (sentenceWords_ne_nil s)
  have hxU : x ∈ jsSetDedup (sentenceWords s ++ sentenceWords s) :=
    mem_jsSetDedup.2 (List.mem_append_left _ hxw)
  have hc1 : (1 : ℝ) ≤ (countOcc x (sentenceWords s) : ℝ) := by
    exact_mod_cast countOcc_pos hxw
  have hterm : (1 : ℝ) ≤
      (countOcc x (sentenceWords s) : ℝ) * (countOcc x (sentenceWords s) : ℝ) := by
    nlinarith
  have hS : (0 : ℝ) < dotSum (jsSetDedup (sentenceWords s ++ sentenceWords s))
      (sentenceWords s) (sentenceWords s) := by
    have hmem : (countOcc x (sentenceWords s) : ℝ) * (countOcc x (sentenceWords s) : ℝ) ∈
        (jsSetDedup (sentenceWords s ++ sentenceWords s)).map
          fun w => (countOcc w (sentenceWords s) : ℝ) * (countOcc w (sentenceWords s) : ℝ) :=
      List.mem_map.2 ⟨x, hxU, rfl⟩
    have hle := List.single_le_sum (l := (jsSetDedup (sentenceWords s ++ sentenceWords s)).map
        fun w => (countOcc w (sentenceWords s) : ℝ) * (countOcc w (sentenceWords s) : ℝ))
      (fun y hy => by
        rcases List.mem_map.1 hy with ⟨w, _, rfl⟩
        positivity) _ hmem
    calc (0 : ℝ) < 1 := one_pos
      _ ≤ _ := hterm
      _ ≤ _ := hle
  have hsq : Real.sqrt (dotSum (jsSetDedup (sentenceWords s ++ sentenceWords s))
      (sentenceWords s) (sentenceWords s)) ≠ 0 :=
    (Real.sqrt_pos.2 hS).ne'
  rw [if_neg (by push_neg; exact ⟨hsq, hsq⟩), Real.mul_self_sqrt hS.le, div_self hS.ne']

/-! ### The shared ranked-selection pipeline

Every ranker ends with the same block
`sentences.map((sentence, index) => ({sentence, score: scores[index], index}))
  .sort((a, b) => b.score - a.score).slice(0, numSentences)
  .sort((a, b) => a.index - b.index)`.
JavaScript `Array.prototype.sort` is stable; it is modelled by the stable
`List.mergeSort`.  A comparator returning `NaN` is treated as `0` (a tie). -/

/-- One entry of the ranking arrays: `{ sentence, score, index }`. -/
structure RItem (α : Type) where
  sentence : String
  score : α
  index : ℕ

/-- `sentences.map((sentence, index) => ({ sentence, score: scores[index], index }))`. -/
def rankItems {α : Type} (sents : List String) (score : ℕ → α) : List (RItem α) :=
  (List.range sents.length).map fun i => ⟨sents.getD i "", score i, i⟩

/-- Stable `sort((a, b) => b.score - a.score)`; `scoreLe` is the Boolean `≤`
of the score type (`x` may stay before `y` iff `y.score ≤ x.score`, ties and
`NaN` comparisons keeping input order). -/
def sortByScoreDesc {α : Type} (scoreLe : α → α → Bool) (l : List (RItem α)) :
    List (RItem α) :=
  l.mergeSort fun x y => scoreLe y.score x.score

/-- Stable `sort((a, b) => a.index - b.index)`. -/
def sortByIndexAsc {α : Type} (l : List (RItem α)) : List (RItem α) :=
  l.mergeSort fun x y => decide (x.index ≤ y.index)

/-- `.sort(desc score).slice(0, k).sort(asc index)` applied to the item list. -/
def selectTop {α : Type} (scoreLe : α → α → Bool) (sents : List String)
    (score : ℕ → α) (k : ℕ) : List (RItem α) :=
  sortByIndexAsc ((sortByScoreDesc scoreLe (rankItems sents score)).take k)

/-- Boolean `≤` on the idealized JavaScript numbers. -/
noncomputable def realLe (x y : ℝ) : Bool := decide (x ≤ y)

/-- Boolean `≤` on frequency scores (`none` = `NaN`; a `NaN` comparator result
acts as a tie, so both directions hold). -/
def optQLe (x y : Option ℚ) : Bool :=
  match x, y with
  | some a, some b => decide (a ≤ b)
  | _, _ => true

/-- `sentences.join('. ') + '.'`. -/
def joinSummary (sents : List String) : String :=
  String.intercalate ". " sents ++ "."

/-- The claim-relevant fields of `SummaryResult`.  `processingTime` is wall
clock (`Date.now()`), and the quality metrics / visualization fields are
modelled by the standalone `calculateCoherence` / `generateVisualizationData`
below, since they carry the external sentiment analyzer's output. -/
structure SummaryResult where
  method : String
  summary : String
  sentences : List String

/-! ### TextRank (`textRankSummarize`) -/

/-- The TextRank similarity matrix: explicit zero diagonal, cosine
similarity off the diagonal. -/
noncomputable def textRankMatrix (sents : List String) (i j : ℕ) : ℝ :=
  if i = j then 0 else cosineSimilarity (sents.getD i "") (sents.getD j "")

/-- `similarityMatrix[j].reduce((a, b) => a + b, 0)`. -/
noncomputable def textRankRowSum (sents : List String) (j : ℕ) : ℝ :=
  ∑ l ∈ Finset.range sents.length, textRankMatrix sents j l

/-- The damped PageRank iteration (`damping = 0.85`), synchronous update;
`textRankScores sents t i` is entry `i` of the score vector after `t` rounds
(initially all `1`). -/
noncomputable def textRankScores (sents : List String) : ℕ → ℕ → ℝ
  | 0 => fun _ => 1
  | t + 1 => fun i =>
    (1 - 0.85) + 0.85 *
      ∑ j ∈ Finset.range sents.length,
        if j ≠ i ∧ 0 < textRankRowSum sents j then
          textRankMatrix sents j i / textRankRowSum sents j * textRankScores sents t j
        else 0

/-- `textRankSummarize` (JavaScript default `numSentences = 3`). -/
noncomputable def textRankSummarize (text : String) (numSentences : ℕ) : SummaryResult :=
  let sentences := tokenizeSentences text
  if sentences.length ≤ numSentences then
    { method := "TextRank", summary := joinSummary sentences, sentences := sentences }
  else
    let rankedSentences :=
      selectTop realLe sentences (textRankScores sentences 50) numSentences
    { method := "TextRank",
      summary := joinSummary (rankedSentences.map RItem.sentence),
      sentences := rankedSentences.map RItem.sentence }

/-! ### LexRank (`lexRankSummarize`) -/

/-- The LexRank matrix as first built (`threshold = 0.1`):
`similarity > threshold ? similarity : 0`, including on the diagonal. -/
noncomputable def lexRankRawMatrix (sents : List String) (i j : ℕ) : ℝ :=
  let similarity := cosineSimilarity (sents.getD i "") (sents.getD j "")
  if 0.1 < similarity then similarity else 0

/-- Row sums of the raw LexRank matrix. -/
noncomputable def lexRankRowSum (sents : List String) (i : ℕ) : ℝ :=
  ∑ j ∈ Finset.range sents.length, lexRankRawMatrix sents i j

/-- The row-normalized LexRank matrix (rows with sum `0` left unchanged). -/
noncomputable def lexRankMatrix (sents : List String) (i j : ℕ) : ℝ :=
  if 0 < lexRankRowSum sents i then lexRankRawMatrix sents i j / lexRankRowSum sents i
  else lexRankRawMatrix sents i j

/-- The LexRank power iteration: initial vector uniform `1/n`, `t` rounds of
`newScores[i] = Σ_j matrix[j][i] * scores[j]`. -/
noncomputable def lexRankScores (sents : List String) : ℕ → ℕ → ℝ
  | 0 => fun _ => 1 / (sents.length : ℝ)
  | t + 1 => fun i =>
    ∑ j ∈ Finset.range sents.length, lexRankMatrix sents j i * lexRankScores sents t j

/-- `lexRankSummarize` (JavaScript default `numSentences = 3`). -/
noncomputable def lexRankSummarize (text : String) (numSentences : ℕ) : SummaryResult :=
  let sentences := tokenizeSentences text
  if sentences.length ≤ numSentences then
    { method := "LexRank", summary := joinSummary sentences, sentences := sentences }
  else
    let rankedSentences :=
      selectTop realLe sentences (lexRankScores sentences 50) numSentences
    { method := "LexRank",
      summary := joinSummary (rankedSentences.map RItem.sentence),
      sentences := rankedSentences.map RItem.sentence }

/-! ### Frequency-based ranker and the BART fallback path -/

/-- The lowercase `\w+` tokens colliding with `Object.prototype` members.
The frequency table is a plain object literal, so `wordFreq[word]` for these
keys yields the inherited `Object.prototype.constructor` function resp. the
`__proto__` prototype object instead of a stored count; both are truthy, so
the `|| 0` guard does not apply, and JavaScript `+` then turns the running
score into a string, never again a number.  (Every other `Object.prototype`
member name contains an uppercase letter and cannot be produced by
`text.toLowerCase()`.) -/
def protoPollutedTokens : List String := ["constructor", "__proto__"]

/-- The numeric entries of the global frequency table of
`frequencyBasedSummarize` / the `bartSummarize` fallback: occurrences in
`text.toLowerCase().match(/\b\w+\b/g) || []` of words longer than 3
characters, `0` otherwise (`wordFreq[word] || 0`).  For the two
`protoPollutedTokens` keys the JavaScript lookup instead produces a corrupted
non-number value; `freqScore` handles that case separately and never consults
this function there. -/
def wordFreq (text w : String) : ℕ :=
  if 3 < w.data.length then countOcc w (matchWords (jsLower text)) else 0

/-- Per-sentence frequency score: sum of the global frequencies of the
sentence's word tokens divided by the token count.  The JavaScript result is
`NaN` — modelled as `none` — in two cases: a sentence with no word token
(`0 / 0 = NaN`), and a sentence containing one of the `protoPollutedTokens`,
whose prototype-chain lookup makes `sum` a non-numeric string and the final
division `NaN`. -/
def freqScore (text sentence : String) : Option ℚ :=
  let sentenceWs := matchWords (jsLower sentence)
  if sentenceWs.length = 0 then none
  else if ∃ w ∈ sentenceWs, w ∈ protoPollutedTokens then none
  else some (((sentenceWs.map (wordFreq text)).sum : ℚ) / (sentenceWs.length : ℚ))

/-- `frequencyBasedSummarize` (first module revision, lines 169–214). -/
def frequencyBasedSummarize (text : String) (numSentences : ℕ) : SummaryResult :=
  let sentences := tokenizeSentences text
  if sentences.length ≤ numSentences then
    { method := "Frequency-Based", summary := joinSummary sentences, sentences := sentences }
  else
    let rankedSentences :=
      selectTop optQLe sentences (fun i => freqScore text (sentences.getD i "")) numSentences
    { method := "Frequency-Based",
      summary := joinSummary (rankedSentences.map RItem.sentence),
      sentences := rankedSentences.map RItem.sentence }

/-- The `catch` fallback path of `bartSummarize` (lines 639–686): identical
frequency scoring and selection, but with no short-circuit and the method
label `'BART (Fallback)'`. -/
def bartFallback (text : String) (numSentences : ℕ) : SummaryResult :=
  let sentences := tokenizeSentences text
  let rankedSentences :=
    selectTop optQLe sentences (fun i => freqScore text (sentences.getD i "")) numSentences
  { method := "BART (Fallback)",
    summary := joinSummary (rankedSentences.map RItem.sentence),
    sentences := rankedSentences.map RItem.sentence }

/-! ### Quality metrics: coherence (`calculateQualityMetrics`, lines 299–304) -/

/-- The coherence value computed by the Quality Evaluator before rounding:
sum of cosine similarities of consecutive selected sentences divided by
`length - 1` when more than one sentence is selected, else `1`. -/
noncomputable def calculateCoherence (selectedSentences : List String) : ℝ :=
  let coherenceSum :=
    ∑ i ∈ Finset.range (selectedSentences.length - 1),
      cosineSimilarity (selectedSentences.getD i "") (selectedSentences.getD (i + 1) "")
  if 1 < selectedSentences.length then
    coherenceSum / ((selectedSentences.length - 1 : ℕ) : ℝ)
  else 1

/-- Modelled from the spec: coherence as the mean cosine similarity over the
list of consecutive pairs of selected sentences (in selected-summary order),
`1` when fewer than 2 sentences are selected. -/
noncomputable def coherenceSpec (selected : List String) : ℝ :=
  if selected.length < 2 then 1
  else
    ((selected.zip selected.tail).map fun p => cosineSimilarity p.1 p.2).sum /
      ((selected.zip selected.tail).length : ℝ)

/-! ### Visualization builder (`generateVisualizationData`, `generateTopicClusters`)

The external collaborators are passed as parameters: `analyze` is the
sentiment library's per-text comparative score, `rand` stands for the
`Math.random()` centroid placeholder. -/

/-- One `SentenceNode`; `connections` are `(target, weight)` pairs. -/
structure SentenceNode where
  id : String
  text : String
  score : ℝ
  sentiment : ℝ
  connections : List (String × ℝ)

/-- One `TopicCluster`. -/
structure TopicCluster where
  id : String
  keywords : List String
  sentences : List String
  centroid : ℝ × ℝ
  color : String

/-- The cluster color palette. -/
def clusterColors : List String := ["#3B82F6", "#EF4444", "#10B981", "#F59E0B"]

/-- `str.match(/\b\w{4,}\b/g) || []`: word-character runs of length at least 4. -/
def matchWords4 (s : String) : List String :=
  (matchWords s).filter fun w => 4 ≤ w.data.length

/-- `generateTopicClusters`: global frequency of length-≥4 tokens over all
sentences, top 12 keywords, groups of 4 (at most 3), each cluster keeping the
sentences containing one of its keywords; empty clusters dropped.  Two
aspects are idealized here and only here: the keyword base order is modelled
as first-occurrence order, whereas JavaScript `Object.entries` fronts
integer-like keys (such as a year token) in numeric order, and the counts are
modelled as pure occurrence counts, whereas the lookups of the
`protoPollutedTokens` keys corrupt those entries and make their comparator
results `NaN` (ties).  No claim depends on the cluster contents: C8 counts
only the sentence-graph nodes, which are independent of this function. -/
def generateTopicClusters (rand : ℕ → ℝ × ℝ) (sentences : List String) :
    List TopicCluster :=
  let words := sentences.flatMap fun s => matchWords4 (jsLower s)
  let topWords :=
    ((jsSetDedup words).mergeSort fun x y => decide (countOcc y words ≤ countOcc x words)).take 12
  (List.range (min 3 ((topWords.length + 3) / 4))).filterMap fun i =>
    let clusterKeywords := (topWords.drop (i * 4)).take 4
    let clusterSentences := sentences.filter fun sentence =>
      clusterKeywords.any fun keyword => decide (keyword.data <:+: (jsLower sentence).data)
    if 0 < clusterSentences.length then
      some
        { id := "cluster-" ++ toString i,
          keywords := clusterKeywords,
          sentences := clusterSentences.map fun s => String.mk (s.data.take 80) ++ "...",
          centroid := rand i,
          color := clusterColors.getD (i % clusterColors.length) "" }
    else none

/-- `generateVisualizationData` (lines 331–370): cap at `MAX_NODES = 25`
top-scoring sentences, build one node per kept index with edges (weight
`> 0.1`, no self-edge) only among kept indices. -/
noncomputable def generateVisualizationData (analyze : String → ℝ) (rand : ℕ → ℝ × ℝ)
    (sentences : List String) (scores : List ℝ) (similarityMatrix : List (List ℝ)) :
    List SentenceNode × List TopicCluster :=
  let indexScorePairs :=
    (List.range sentences.length).map fun index => (index, scores.getD index 0)
  let rankedIndices :=
    ((indexScorePairs.mergeSort fun a b => realLe b.2 a.2).take
        (min 25 sentences.length)).map Prod.fst
  let sentenceGraph := rankedIndices.map fun originalIndex =>
    let sentence := sentences.getD originalIndex ""
    let sentimentScore := analyze sentence
    let connections :=
      (rankedIndices.map fun targetIndex =>
          ("sentence-" ++ toString targetIndex,
            (similarityMatrix.getD originalIndex []).getD targetIndex 0)).filter
        fun conn =>
          decide ((0.1 : ℝ) < conn.2) && (conn.1 != "sentence-" ++ toString originalIndex)
    { id := "sentence-" ++ toString originalIndex,
      text := String.mk (sentence.data.take 100) ++
        (if 100 < sentence.data.length then "..." else ""),
      score := scores.getD originalIndex 0,
      sentiment := sentimentScore,
      connections := connections }
  (sentenceGraph, generateTopicClusters rand sentences)

/-! ### Lemmas about the selection pipeline -/

theorem range_map_getD {α : Type} (d : α) :
    ∀ l : List α, (List.range l.length).map (fun i => l.getD i d) = l
  | [] => rfl
  | a :: l => by
    rw [List.length_cons, List.range_succ_eq_map, List.map_cons, List.map_map]
    simp only [Function.comp_def, List.getD_cons_zero, List.getD_cons_succ]
    rw [range_map_getD d l]

/-- Picking entries of `l` at a strictly increasing list of in-range indices
yields a sublist of `l`. -/
theorem map_getD_sublist {α : Type} (d : α) :
    ∀ (l : List α) (is' : List ℕ), is'.Pairwise (· < ·) → (∀ i ∈ is', i < l.length) →
      (is'.map fun i => l.getD i d).Sublist l
  | l, [] => fun _ _ => by simp
  | [], i :: is' => fun _ hb => absurd (hb i (List.mem_cons_self _ _)) (by simp)
  | a :: l, i :: is' => fun hp hb => by
    have htail : ∀ j ∈ is', 1 ≤ j := by
      intro j hj
      have := List.rel_of_pairwise_cons hp hj
      omega
    by_cases hi : i = 0
    · subst hi
      have hrw : (is'.map fun j => (a :: l).getD j d) =
          (is'.map fun j => j - 1).map fun j => l.getD j d := by
        rw [List.map_map]
        refine List.map_congr_left fun j hj => ?_
        obtain ⟨j', rfl⟩ : ∃ j', j = j' + 1 := ⟨j - 1, by have := htail j hj; omega⟩
        simp [Function.comp_def]
      have hsub : ((is'.map fun j => j - 1).map fun j => l.getD j d).Sublist l := by
        refine map_getD_sublist d l _ ?_ ?_
        · refine (List.pairwise_map).2 (hp.of_cons.imp_of_mem ?_)
          intro x y hx hy hxy
          have := htail x hx
          omega
        · intro j hj
          rcases List.mem_map.1 hj with ⟨j', hj', rfl⟩
          have h1 := htail j' hj'
          have h2 := hb j' (List.mem_cons_of_mem _ hj')
          simp only [List.length_cons] at h2
          omega
      rw [List.map_cons, hrw, List.getD_cons_zero]
      exact hsub.cons₂ a
    · have hall : ∀ j ∈ i :: is', 1 ≤ j := by
        intro j hj
        rcases List.mem_cons.1 hj with rfl | hj'
        · omega
        · exact htail j hj'
      have hrw : ((i :: is').map fun j => (a :: l).getD j d) =
          ((i :: is').map fun j => j - 1).map fun j => l.getD j d := by
        rw [List.map_map]
        refine List.map_congr_left fun j hj => ?_
        obtain ⟨j', rfl⟩ : ∃ j', j = j' + 1 := ⟨j - 1, by have := hall j hj; omega⟩
        simp [Function.comp_def]
      have hsub : (((i :: is').map fun j => j - 1).map fun j => l.getD j d).Sublist l := by
        refine map_getD_sublist d l _ ?_ ?_
        · refine (List.pairwise_map).2 (hp.imp_of_mem ?_)
          intro x y hx hy hxy
          have := hall x hx
          omega
        · intro j hj
          rcases List.mem_map.1 hj with ⟨j', hj', rfl⟩
          have h1 := hall j' hj'
          have h2 := hb j' hj'
          simp only [List.length_cons] at h2
          omega
      rw [hrw]
      exact hsub.cons a

theorem rankItems_map_index {α : Type} (sents : List String) (score : ℕ → α) :
    (rankItems sents score).map RItem.index = List.range sents.length := by
  simp [rankItems, List.map_map, Function.comp_def]

theorem rankItems_map_sentence {α : Type} (sents : List String) (score : ℕ → α) :
    (rankItems sents score).map RItem.sentence = sents := by
  rw [rankItems, List.map_map]
  simpa [Function.comp_def] using range_map_getD "" sents

theorem mem_rankItems_eq {α : Type} {sents : List String} {score : ℕ → α}
    {x : RItem α} (hx : x ∈ rankItems sents score) :
    x.index < sents.length ∧ x = ⟨sents.getD x.index "", score x.index, x.index⟩ := by
  rcases List.mem_map.1 hx with ⟨i, hi, rfl⟩
  exact ⟨List.mem_range.1 hi, rfl⟩

theorem sortByIndexAsc_pairwise {α : Type} (l : List (RItem α)) :
    (sortByIndexAsc l).Pairwise fun x y => x.index ≤ y.index := by
  have htrans : ∀ a b c : RItem α, (fun x y : RItem α => decide (x.index ≤ y.index)) a b →
      (fun x y : RItem α => decide (x.index ≤ y.index)) b c →
      (fun x y : RItem α => decide (x.index ≤ y.index)) a c := by
    intro a b c hab hbc
    simp only [decide_eq_true_eq] at *
    omega
  have htotal : ∀ a b : RItem α, ((fun x y : RItem α => decide (x.index ≤ y.index)) a b ||
      (fun x y : RItem α => decide (x.index ≤ y.index)) b a) = true := by
    intro a b
    simpa using Nat.le_total a.index b.index
  have h := List.sorted_mergeSort htrans htotal l
  exact h.imp fun hab => of_decide_eq_true hab

theorem sortByIndexAsc_perm {α : Type} (l : List (RItem α)) :
    (sortByIndexAsc l).Perm l :=
  List.mergeSort_perm l _

theorem sortByScoreDesc_perm {α : Type} (scoreLe : α → α → Bool) (l : List (RItem α)) :
    (sortByScoreDesc scoreLe l).Perm l :=
  List.mergeSort_perm l _

/-- The fundamental ordering fact of the pipeline: the selected sentences form
a sublist of the input sentences (they are listed by ascending original
index, which for distinct indices is exactly document order). -/
theorem selectTop_map_sentence_sublist {α : Type} (scoreLe : α → α → Bool)
    (sents : List String) (score : ℕ → α) (k : ℕ) :
    ((selectTop scoreLe sents score k).map RItem.sentence).Sublist sents := by
  have hperm1 := sortByScoreDesc_perm scoreLe (rankItems sents score)
  have hsub1 := List.take_sublist k (sortByScoreDesc scoreLe (rankItems sents score))
  have hperm2 := sortByIndexAsc_perm ((sortByScoreDesc scoreLe (rankItems sents score)).take k)
  have hmem : ∀ x ∈ selectTop scoreLe sents score k,
      x.index < sents.length ∧ x.sentence = sents.getD x.index "" := by
    intro x hx
    have hx1 : x ∈ rankItems sents score :=
      hperm1.subset (hsub1.subset (hperm2.subset hx))
    obtain ⟨hlt, hx2⟩ := mem_rankItems_eq hx1
    exact ⟨hlt, by rw [hx2]⟩
  have hsorted : (selectTop scoreLe sents score k).Pairwise fun x y => x.index ≤ y.index :=
    sortByIndexAsc_pairwise _
  have hnodup : ((selectTop scoreLe sents score k).map RItem.index).Nodup := by
    have h0 : ((rankItems sents score).map RItem.index).Nodup := by
      rw [rankItems_map_index]; exact List.nodup_range _
    have h1 : ((sortByScoreDesc scoreLe (rankItems sents score)).map RItem.index).Nodup :=
      ((hperm1.map RItem.index).nodup_iff).2 h0
    have h2 : (((sortByScoreDesc scoreLe (rankItems sents score)).take k).map
        RItem.index).Nodup := (hsub1.map RItem.index).nodup h1
    exact ((hperm2.map RItem.index).nodup_iff).2 h2
  have hpair : ((selectTop scoreLe sents score k).map RItem.index).Pairwise (· < ·) := by
    have hle : ((selectTop scoreLe sents score k).map RItem.index).Pairwise (· ≤ ·) :=
      (List.pairwise_map).2 hsorted
    have hne : ((selectTop scoreLe sents score k).map RItem.index).Pairwise (· ≠ ·) :=
      hnodup
    exact (hle.and hne).imp fun h => lt_of_le_of_ne h.1 h.2
  have hrw : (selectTop scoreLe sents score k).map RItem.sentence =
      ((selectTop scoreLe sents score k).map RItem.index).map fun i => sents.getD i "" := by
    rw [List.map_map]
    exact List.map_congr_left fun x hx => (hmem x hx).2
  rw [hrw]
  refine map_getD_sublist "" sents _ hpair ?_
  intro i hi
  rcases List.mem_map.1 hi with ⟨x, hx, rfl⟩
  exact (hmem x hx).1

/-- Sorting any permutation of a fresh item list by ascending index restores
the item list itself (indices are distinct and already increasing). -/
theorem sortByIndexAsc_eq_of_perm_rankItems {α : Type} {xs : List (RItem α)}
    {sents : List String} {score : ℕ → α} (h : xs.Perm (rankItems sents score)) :
    sortByIndexAsc xs = rankItems sents score := by
  have hperm : (sortByIndexAsc xs).Perm (rankItems sents score) :=
    (sortByIndexAsc_perm xs).trans h
  have hidx : (sortByIndexAsc xs).map RItem.index =
      (rankItems sents score).map RItem.index := by
    have hs1 : ((sortByIndexAsc xs).map RItem.index).Sorted (· ≤ ·) :=
      (List.pairwise_map).2 (sortByIndexAsc_pairwise xs)
    have hs2 : ((rankItems sents score).map RItem.index).Sorted (· ≤ ·) := by
      rw [rankItems_map_index]
      exact List.sorted_le_range _
    exact List.eq_of_perm_of_sorted (hperm.map RItem.index) hs1 hs2
  have hmem : ∀ x ∈ sortByIndexAsc xs,
      x = (⟨sents.getD x.index "", score x.index, x.index⟩ : RItem α) := by
    intro x hx
    exact (mem_rankItems_eq (hperm.subset hx)).2
  calc sortByIndexAsc xs
      = (sortByIndexAsc xs).map id := (List.map_id _).symm
    _ = (sortByIndexAsc xs).map
        (fun x : RItem α => (⟨sents.getD x.index "", score x.index, x.index⟩ : RItem α)) :=
        List.map_congr_left fun x hx => hmem x hx
    _ = ((sortByIndexAsc xs).map RItem.index).map
        (fun i => (⟨sents.getD i "", score i, i⟩ : RItem α)) := by
        rw [List.map_map]; rfl
    _ = ((rankItems sents score).map RItem.index).map
        (fun i => (⟨sents.getD i "", score i, i⟩ : RItem α)) := by rw [hidx]
    _ = (List.range sents.length).map
        (fun i => (⟨sents.getD i "", score i, i⟩ : RItem α)) := by rw [rankItems_map_index]
    _ = rankItems sents score := rfl

/-! ### Unfolding lemmas for the summarizers -/

theorem textRankSummarize_eq (text : String) (k : ℕ) :
    textRankSummarize text k =
      if (tokenizeSentences text).length ≤ k then
        { method := "TextRank", summary := joinSummary (tokenizeSentences text),
          sentences := tokenizeSentences text }
      else
        { method := "TextRank",
          summary := joinSummary ((selectTop realLe (tokenizeSentences text)
            (textRankScores (tokenizeSentences text) 50) k).map RItem.sentence),
          sentences := (selectTop realLe (tokenizeSentences text)
            (textRankScores (tokenizeSentences text) 50) k).map RItem.sentence } := rfl

theorem lexRankSummarize_eq (text : String) (k : ℕ) :
    lexRankSummarize text k =
      if (tokenizeSentences text).length ≤ k then
        { method := "LexRank", summary := joinSummary (tokenizeSentences text),
          sentences := tokenizeSentences text }
      else
        { method := "LexRank",
          summary := joinSummary ((selectTop realLe (tokenizeSentences text)
            (lexRankScores (tokenizeSentences text) 50) k).map RItem.sentence),
          sentences := (selectTop realLe (tokenizeSentences text)
            (lexRankScores (tokenizeSentences text) 50) k).map RItem.sentence } := rfl

theorem frequencyBasedSummarize_eq (text : String) (k : ℕ) :
    frequencyBasedSummarize text k =
      if (tokenizeSentences text).length ≤ k then
        { method := "Frequency-Based", summary := joinSummary (tokenizeSentences text),
          sentences := tokenizeSentences text }
      else
        { method := "Frequency-Based",
          summary := joinSummary ((selectTop optQLe (tokenizeSentences text)
            (fun i => freqScore text ((tokenizeSentences text).getD i "")) k).map
              RItem.sentence),
          sentences := (selectTop optQLe (tokenizeSentences text)
            (fun i => freqScore text ((tokenizeSentences text).getD i "")) k).map
              RItem.sentence } := rfl

theorem bartFallback_eq (text : String) (k : ℕ) :
    bartFallback text k =
      { method := "BART (Fallback)",
        summary := joinSummary ((selectTop optQLe (tokenizeSentences text)
          (fun i => freqScore text ((tokenizeSentences text).getD i "")) k).map
            RItem.sentence),
        sentences := (selectTop optQLe (tokenizeSentences text)
          (fun i => freqScore text ((tokenizeSentences text).getD i "")) k).map
            RItem.sentence } := rfl

/-! ### Nonnegativity and lower bounds of the iterated scores -/

theorem textRankMatrix_nonneg (sents : List String) (i j : ℕ) :
    0 ≤ textRankMatrix sents i j := by
  rw [textRankMatrix]
  split
  · exact le_refl 0
  · exact cosineSimilarity_nonneg _ _

theorem textRankScores_nonneg (sents : List String) :
    ∀ (t i : ℕ), 0 ≤ textRankScores sents t i
  | 0, i => by
    rw [textRankScores]
    exact zero_le_one
  | t + 1, i => by
    rw [textRankScores]
    have hsum : 0 ≤ ∑ j ∈ Finset.range sents.length,
        if j ≠ i ∧ 0 < textRankRowSum sents j then
          textRankMatrix sents j i / textRankRowSum sents j * textRankScores sents t j
        else 0 := by
      refine Finset.sum_nonneg fun j _ => ?_
      split
      · rename_i hj
        exact mul_nonneg (div_nonneg (textRankMatrix_nonneg _ _ _) hj.2.le)
          (textRankScores_nonneg sents t j)
      · exact le_refl 0
    nlinarith

theorem textRankScores_ge_015 (sents : List String) (t i : ℕ) (ht : 1 ≤ t) :
    0.15 ≤ textRankScores sents t i := by
  obtain ⟨s, rfl⟩ : ∃ s, t = s + 1 := ⟨t - 1, by omega⟩
  rw [textRankScores]
  have hsum : 0 ≤ ∑ j ∈ Finset.range sents.length,
      if j ≠ i ∧ 0 < textRankRowSum sents j then
        textRankMatrix sents j i / textRankRowSum sents j * textRankScores sents s j
      else 0 := by
    refine Finset.sum_nonneg fun j _ => ?_
    split
    · rename_i hj
      exact mul_nonneg (div_nonneg (textRankMatrix_nonneg _ _ _) hj.2.le)
        (textRankScores_nonneg sents s j)
    · exact le_refl 0
  nlinarith

theorem lexRankRawMatrix_nonneg (sents : List String) (i j : ℕ) :
    0 ≤ lexRankRawMatrix sents i j := by
  rw [lexRankRawMatrix]
  split
  · exact cosineSimilarity_nonneg _ _
  · exact le_refl 0

theorem lexRankRowSum_nonneg (sents : List String) (i : ℕ) :
    0 ≤ lexRankRowSum sents i :=
  Finset.sum_nonneg fun j _ => lexRankRawMatrix_nonneg sents i j

theorem lexRankMatrix_nonneg (sents : List String) (i j : ℕ) :
    0 ≤ lexRankMatrix sents i j := by
  rw [lexRankMatrix]
  split
  · rename_i h
    exact div_nonneg (lexRankRawMatrix_nonneg _ _ _) h.le
  · exact lexRankRawMatrix_nonneg _ _ _

theorem lexRankScores_nonneg (sents : List String) :
    ∀ (t i : ℕ), 0 ≤ lexRankScores sents t i
  | 0, i => by
    rw [lexRankScores]
    positivity
  | t + 1, i => by
    rw [lexRankScores]
    exact Finset.sum_nonneg fun j _ =>
      mul_nonneg (lexRankMatrix_nonneg sents j i) (lexRankScores_nonneg sents t j)

/-! ### Coherence: loop form vs consecutive-pair form -/

theorem zip_tail_map_sum (F : String → String → ℝ) :
    ∀ l : List String,
      ((l.zip l.tail).map fun p => F p.1 p.2).sum =
        ∑ i ∈ Finset.range (l.length - 1), F (l.getD i "") (l.getD (i + 1) "")
  | [] => by simp
  | [a] => by simp
  | a :: b :: l => by
    have ih := zip_tail_map_sum F (b :: l)
    simp only [List.tail_cons] at ih
    simp only [List.tail_cons, List.zip_cons_cons, List.map_cons, List.sum_cons]
    rw [ih]
    have hlen : (a :: b :: l).length - 1 = ((b :: l).length - 1) + 1 := by
      simp
    rw [hlen, Finset.sum_range_succ']
    simp only [List.getD_cons_succ, List.getD_cons_zero]
    ring

theorem length_zip_tail (l : List String) : (l.zip l.tail).length = l.length - 1 := by
  cases l with
  | nil => simp
  | cons a l => simp [List.length_zip]

/-! ## The claims -/

/-- C1 (amended): the TextRank matrix has a zero diagonal, but the LexRank
matrix construction only thresholds the self-similarity, so its diagonal
entries equal `1` (the cosine self-similarity, which always exceeds the `0.1`
threshold) before row normalization — not `0`. -/
theorem diagonal_textRank_zero_lexRank_one (sents : List String) (i : ℕ) :
    textRankMatrix sents i i = 0 ∧ lexRankRawMatrix sents i i = 1 := by
  refine ⟨by simp [textRankMatrix], ?_⟩
  simp only [lexRankRawMatrix, cosineSimilarity_self]
  norm_num

/-- C1 (counterexample): on a concrete two-sentence document (so that ranking
runs for a requested count of 1), the LexRank matrix's diagonal entry `(0,0)`
is not `0`, contradicting the claim that both methods build zero-diagonal
matrices. -/
theorem lexRank_diagonal_counterexample :
    1 < (tokenizeSentences
      "the first test sentence stands proud. the second test sentence stands tall.").length ∧
    lexRankRawMatrix (tokenizeSentences
      "the first test sentence stands proud. the second test sentence stands tall.") 0 0 ≠ 0 := by
  refine ⟨by decide, ?_⟩
  simp only [lexRankRawMatrix, cosineSimilarity_self]
  norm_num

/-- C2: when the segmented sentence count is at most the requested count, both
`textRankSummarize` and `lexRankSummarize` return every segmented sentence in
original order, and the summary is those sentences joined with `'. '` plus a
final `'.'`. -/
theorem short_input_returns_all_sentences (text : String) (k : ℕ)
    (h : (tokenizeSentences text).length ≤ k) :
    (textRankSummarize text k).sentences = tokenizeSentences text ∧
    (textRankSummarize text k).summary =
      String.intercalate ". " (tokenizeSentences text) ++ "." ∧
    (lexRankSummarize text k).sentences = tokenizeSentences text ∧
    (lexRankSummarize text k).summary =
      String.intercalate ". " (tokenizeSentences text) ++ "." := by
  rw [textRankSummarize_eq, lexRankSummarize_eq, if_pos h, if_pos h]
  exact ⟨rfl, rfl, rfl, rfl⟩

/-- C2 (witness): a concrete two-sentence document with requested count 3. -/
theorem short_input_returns_all_sentences_witness :
    (textRankSummarize
        "the quick brown foxes jump over everything. lazy dogs sleep around here all day."
        3).sentences =
      tokenizeSentences
        "the quick brown foxes jump over everything. lazy dogs sleep around here all day." ∧
    (textRankSummarize
        "the quick brown foxes jump over everything. lazy dogs sleep around here all day."
        3).summary =
      String.intercalate ". " (tokenizeSentences
        "the quick brown foxes jump over everything. lazy dogs sleep around here all day.") ++
        "." ∧
    (lexRankSummarize
        "the quick brown foxes jump over everything. lazy dogs sleep around here all day."
        3).sentences =
      tokenizeSentences
        "the quick brown foxes jump over everything. lazy dogs sleep around here all day." ∧
    (lexRankSummarize
        "the quick brown foxes jump over everything. lazy dogs sleep around here all day."
        3).summary =
      String.intercalate ". " (tokenizeSentences
        "the quick brown foxes jump over everything. lazy dogs sleep around here all day.") ++
        "." :=
  short_input_returns_all_sentences _ 3 (by decide)

/-- C3: cosine similarity is symmetric and lies in `[0, 1]`. -/
theorem cosineSimilarity_symm_and_bounded (a b : String) :
    cosineSimilarity a b = cosineSimilarity b a ∧
      0 ≤ cosineSimilarity a b ∧ cosineSimilarity a b ≤ 1 :=
  ⟨cosineSimilarity_comm a b, cosineSimilarity_nonneg a b, cosineSimilarity_le_one a b⟩

/-- C4 (amended): similarity values and the TextRank / LexRank scores are
always nonnegative (and, as real numbers of the model, finite); the
frequency-based per-sentence score is a finite nonnegative value for every
sentence that contains at least one word token and none of the
prototype-colliding tokens `constructor` / `__proto__`.  It is JavaScript
`NaN` (modelled as `none`) for a sentence with no word token (`0 / 0`) and
for a sentence containing a prototype-colliding token (the plain-object
lookup turns the sum into a string), so the claim's "never NaN" part fails
in both of those cases. -/
theorem scores_finite_nonneg_amended :
    (∀ a b : String, 0 ≤ cosineSimilarity a b) ∧
    (∀ (sents : List String) (t i : ℕ), 0 ≤ textRankScores sents t i) ∧
    (∀ (sents : List String) (t i : ℕ), 0 ≤ lexRankScores sents t i) ∧
    (∀ text sentence : String, matchWords (jsLower sentence) ≠ [] →
      (∀ w ∈ matchWords (jsLower sentence), w ∉ protoPollutedTokens) →
      ∃ q : ℚ, freqScore text sentence = some q ∧ 0 ≤ q) := by
  refine ⟨cosineSimilarity_nonneg, textRankScores_nonneg, lexRankScores_nonneg, ?_⟩
  intro text sentence h hw
  have hlen : ¬(matchWords (jsLower sentence)).length = 0 := by
    simpa [List.length_eq_zero] using h
  have hex : ¬∃ w ∈ matchWords (jsLower sentence), w ∈ protoPollutedTokens := by
    push_neg
    exact hw
  simp only [freqScore, if_neg hlen, if_neg hex]
  exact ⟨_, rfl, by positivity⟩

/-- C4 (witness): a concrete sentence with word tokens, none of them
prototype-colliding, gets a finite nonnegative frequency score. -/
theorem scores_finite_nonneg_amended_witness :
    ∃ q : ℚ, freqScore "the cats sit around here. more cats sit around there."
      "the cats sit around here" = some q ∧ 0 ≤ q :=
  scores_finite_nonneg_amended.2.2.2 _ _ (by decide) (by decide)

/-- C4 (counterexample): two concrete documents with 5 segmented sentences
each (so frequency ranking runs for the default requested count 3) refute
"every per-sentence score is finite and never NaN".  In the first, the
segmented sentence `"@# $% ^& *() +="` — longer than 10 characters but with
no word character — scores `0 / 0 = NaN` (`none`).  In the second, the
segmented sentence `"the constructor pattern shows here"` has plenty of word
tokens, yet also scores `NaN` because the table lookup of `constructor` hits
`Object.prototype` and string-corrupts the sum. -/
theorem freqScore_nan_counterexample :
    (3 < (tokenizeSentences
      "@# $% ^& *() +=. the cats sit around here. the dogs sit around there. the birds fly around above. fish swim in the water.").length ∧
    "@# $% ^& *() +=" ∈ tokenizeSentences
      "@# $% ^& *() +=. the cats sit around here. the dogs sit around there. the birds fly around above. fish swim in the water." ∧
    freqScore
      "@# $% ^& *() +=. the cats sit around here. the dogs sit around there. the birds fly around above. fish swim in the water."
      "@# $% ^& *() +=" = none) ∧
    (3 < (tokenizeSentences
      "the constructor pattern shows here. the cats sit around here. the dogs sit around there. the birds fly around above. fish swim in the water.").length ∧
    "the constructor pattern shows here" ∈ tokenizeSentences
      "the constructor pattern shows here. the cats sit around here. the dogs sit around there. the birds fly around above. fish swim in the water." ∧
    matchWords (jsLower "the constructor pattern shows here") ≠ [] ∧
    freqScore
      "the constructor pattern shows here. the cats sit around here. the dogs sit around there. the birds fly around above. fish swim in the water."
      "the constructor pattern shows here" = none) :=
  ⟨⟨by decide, by decide, by decide⟩, ⟨by decide, by decide, by decide, by decide⟩⟩

/-- C5: the Quality Evaluator's coherence equals the mean cosine similarity
over consecutive pairs of selected sentences in selected-summary order, and
equals 1 when fewer than 2 sentences are selected. -/
theorem coherence_eq_mean_consecutive (sel : List String) :
    calculateCoherence sel = coherenceSpec sel ∧
      (sel.length < 2 → calculateCoherence sel = 1) := by
  constructor
  · by_cases h : sel.length < 2
    · have h1 : ¬1 < sel.length := by omega
      simp only [calculateCoherence, coherenceSpec, if_pos h, if_neg h1]
    · have h1 : 1 < sel.length := by omega
      simp only [calculateCoherence, coherenceSpec, if_pos h1, if_neg h]
      rw [zip_tail_map_sum, length_zip_tail]
  · intro h
    have h1 : ¬1 < sel.length := by omega
    simp only [calculateCoherence, if_neg h1]

/-- C5 (witness): coherence of an empty selection is 1, and on a concrete
two-element selection the loop form agrees with the consecutive-pair mean. -/
theorem coherence_eq_mean_consecutive_witness :
    calculateCoherence [] = 1 ∧
      calculateCoherence ["the cats sit", "the dogs sit"] =
        coherenceSpec ["the cats sit", "the dogs sit"] :=
  ⟨(coherence_eq_mean_consecutive []).2 (by decide),
    (coherence_eq_mean_consecutive _).1⟩

/-- C6: the BART failure fallback returns a method label different from the
standalone frequency ranker's label, while its summary text and selected
sentences equal what `frequencyBasedSummarize` produces on the same input. -/
theorem bartFallback_matches_frequencyBased (text : String) (k : ℕ) :
    (bartFallback text k).method ≠ (frequencyBasedSummarize text k).method ∧
    (bartFallback text k).summary = (frequencyBasedSummarize text k).summary ∧
    (bartFallback text k).sentences = (frequencyBasedSummarize text k).sentences := by
  rw [bartFallback_eq, frequencyBasedSummarize_eq]
  by_cases h : (tokenizeSentences text).length ≤ k
  · rw [if_pos h]
    have hlen : (sortByScoreDesc optQLe (rankItems (tokenizeSentences text)
        (fun i => freqScore text ((tokenizeSentences text).getD i "")))).length ≤ k := by
      rw [sortByScoreDesc, List.length_mergeSort, rankItems, List.length_map,
        List.length_range]
      exact h
    have hsel : selectTop optQLe (tokenizeSentences text)
        (fun i => freqScore text ((tokenizeSentences text).getD i "")) k =
        rankItems (tokenizeSentences text)
          (fun i => freqScore text ((tokenizeSentences text).getD i "")) := by
      rw [selectTop, List.take_of_length_le hlen]
      exact sortByIndexAsc_eq_of_perm_rankItems (sortByScoreDesc_perm _ _)
    rw [hsel, rankItems_map_sentence]
    exact ⟨(by decide : ("BART (Fallback)" : String) ≠ "Frequency-Based"), rfl, rfl⟩
  · rw [if_neg h]
    exact ⟨(by decide : ("BART (Fallback)" : String) ≠ "Frequency-Based"), rfl, rfl⟩

/-- C7: the sentences of a TextRank or LexRank result are a sublist of the
segmented input — i.e. listed by ascending original document index (order of
appearance), never by score. -/
theorem summary_sentences_in_document_order (text : String) (k : ℕ) :
    ((textRankSummarize text k).sentences).Sublist (tokenizeSentences text) ∧
    ((lexRankSummarize text k).sentences).Sublist (tokenizeSentences text) := by
  constructor
  · rw [textRankSummarize_eq]
    by_cases h : (tokenizeSentences text).length ≤ k
    · rw [if_pos h]
    · rw [if_neg h]
      exact selectTop_map_sentence_sublist _ _ _ _
  · rw [lexRankSummarize_eq]
    by_cases h : (tokenizeSentences text).length ≤ k
    · rw [if_pos h]
    · rw [if_neg h]
      exact selectTop_map_sentence_sublist _ _ _ _

/-- C8: the visualization sentence graph has exactly `min 25 n` nodes for `n`
input sentences: 25 when more than 25 sentences, one per sentence otherwise,
for every score vector, similarity matrix, sentiment analyzer and centroid
source. -/
theorem sentenceGraph_node_count (analyze : String → ℝ) (rand : ℕ → ℝ × ℝ)
    (sents : List String) (scores : List ℝ) (simM : List (List ℝ)) :
    (generateVisualizationData analyze rand sents scores simM).1.length =
      min 25 sents.length := by
  simp only [generateVisualizationData]
  rw [List.length_map, List.length_map, List.length_take, List.length_mergeSort,
    List.length_map, List.length_range]
  omega

/-- C9: when segmentation yields no sentences, both rankers still return a
result with an empty sentence list and the one-character summary `"."` (the
empty join plus the appended period). -/
theorem empty_segmentation_result (text : String) (k : ℕ)
    (h : tokenizeSentences text = []) :
    (textRankSummarize text k).sentences = [] ∧ (textRankSummarize text k).summary = "." ∧
    (lexRankSummarize text k).sentences = [] ∧ (lexRankSummarize text k).summary = "." := by
  have hlen : (tokenizeSentences text).length ≤ k := by
    rw [h]
    exact Nat.zero_le k
  rw [textRankSummarize_eq, lexRankSummarize_eq, if_pos hlen, if_pos hlen, h]
  exact ⟨rfl, by decide, rfl, by decide⟩

/-- C9 (witness): a concrete text whose fragments are all 10 characters or
shorter segments to no sentences yet yields the summary `"."`. -/
theorem empty_segmentation_result_witness :
    (textRankSummarize "Hi there. No!" 3).sentences = [] ∧
    (textRankSummarize "Hi there. No!" 3).summary = "." ∧
    (lexRankSummarize "Hi there. No!" 3).sentences = [] ∧
    (lexRankSummarize "Hi there. No!" 3).summary = "." :=
  empty_segmentation_result _ 3 (by decide)

/-- C10: whenever TextRank ranking actually runs, each of the 50 damped
iteration rounds leaves every score-vector entry at least `1 - 0.85 = 0.15`,
and in particular the final (round 50) scores are strictly positive. -/
theorem textRank_scores_lower_bound (text : String) (k t i : ℕ)
    (_hrun : k < (tokenizeSentences text).length) (ht1 : 1 ≤ t) (_ht50 : t ≤ 50)
    (_hi : i < (tokenizeSentences text).length) :
    0.15 ≤ textRankScores (tokenizeSentences text) t i ∧
      0 < textRankScores (tokenizeSentences text) 50 i := by
  refine ⟨textRankScores_ge_015 _ t i ht1, ?_⟩
  exact lt_of_lt_of_le (by norm_num)
    (textRankScores_ge_015 (tokenizeSentences text) 50 i (by norm_num))

/-- C10 (witness): a concrete two-sentence document with requested count 1. -/
theorem textRank_scores_lower_bound_witness :
    0.15 ≤ textRankScores (tokenizeSentences
      "the quick brown foxes jump over everything. lazy dogs sleep around here all day.")
      1 0 ∧
    0 < textRankScores (tokenizeSentences
      "the quick brown foxes jump over everything. lazy dogs sleep around here all day.")
      50 0 :=
  textRank_scores_lower_bound _ 1 1 0 (by decide) (by decide) (by decide) (by decide)

end Rerank
